import Mathlib

/-!
Verification of the LightTimer countdown-timer state machine
(src/src/main.rs) against its natural-language specification.

The embedding mirrors the Rust code:
* `Instant` values are modeled as natural numbers (a monotone clock
  reading); `Instant::saturating_duration_since` becomes truncated
  natural subtraction, cast to `Int`.
* `Duration` values are modeled as integers.  Rust's `Duration` is
  non-negative by construction; using `Int` lets the development prove
  (rather than assume) that `remaining` never becomes negative.
* `u32` fields (`set_minutes`, `set_seconds`) become naturals; the Rust
  code widens them to `u64` before `minutes * 60 + seconds`, which
  cannot overflow for `u32` inputs, so `Nat` arithmetic is exact.
* `Instant::now()` calls inside `toggle` and `tick` become an explicit
  `now` parameter supplied by the caller.
-/

/-- The timer state, field for field the Rust struct `AppState`
(the `finished_modal` flag is the spec's `completionPending`,
`last_tick` is the spec's `lastObservedInstant`). -/
structure AppState where
  set_minutes : Nat
  set_seconds : Nat
  running : Bool
  remaining : Int
  last_tick : Option Nat
  finished_modal : Bool

deriving instance DecidableEq, Repr for AppState

/-- `impl Default for AppState`: 5 minutes configured, 300 s remaining,
stopped, no baseline instant, no pending completion. -/
def AppState.default : AppState :=
  { set_minutes := 5, set_seconds := 0, running := false,
    remaining := (300 : Int), last_tick := none, finished_modal := false }

/-- `AppState::apply_set_duration`: installs
`Duration::from_secs((minutes as u64 * 60 + seconds as u64).max(1))`
as the new `remaining`, clears the finished flag and the tick baseline. -/
def AppState.apply_set_duration (s : AppState) : AppState :=
  let secs : Nat := s.set_minutes * 60 + s.set_seconds
  { s with remaining := ((Nat.max secs 1 : Nat) : Int),
           finished_modal := false,
           last_tick := none }

/-- `AppState::reset`: stop, then re-apply the configured duration. -/
def AppState.reset (s : AppState) : AppState :=
  AppState.apply_set_duration { s with running := false }

/-- `AppState::toggle`: flip `running` and record the current instant
as the new tick baseline (`self.last_tick = Some(Instant::now())`). -/
def AppState.toggle (s : AppState) (now : Nat) : AppState :=
  { s with running := !s.running, last_tick := some now }

/-- `AppState::tick` (the spec's `advance(now)`): no-op that clears the
baseline when stopped; establishes the baseline on the first call after
a (re)start with no baseline; otherwise charges the saturating delta
`dt = now.saturating_duration_since(prev)` against `remaining`,
completing (remaining := 0, running := false, finished := true) when
`dt >= remaining`. -/
def AppState.tick (s : AppState) (now : Nat) : AppState :=
  if s.running then
    match s.last_tick with
    | none => { s with last_tick := some now }
    | some prev =>
      let dt : Int := ((now - prev : Nat) : Int)
      if s.remaining ≤ dt then
        { s with remaining := 0, running := false, finished_modal := true,
                 last_tick := some now }
      else
        { s with remaining := s.remaining - dt, last_tick := some now }
  else
    { s with last_tick := none }

/-- Whether a `tick` call at instant `now` executes the completion
branch of `AppState::tick` (the single point that sets the finished
flag). -/
def AppState.fires (s : AppState) (now : Nat) : Bool :=
  s.running &&
    match s.last_tick with
    | none => false
    | some prev => decide (s.remaining ≤ ((now - prev : Nat) : Int))

/-- Iterated `tick` over a list of instants. -/
def AppState.ticks (s : AppState) : List Nat → AppState
  | [] => s
  | n :: ns => (s.tick n).ticks ns

/-- How many of the `tick` calls along a list of instants execute the
completion branch. -/
def AppState.fireCount (s : AppState) : List Nat → Nat
  | [] => 0
  | n :: ns => (if s.fires n then 1 else 0) + (s.tick n).fireCount ns

/-- The total duration, in seconds, derived from the currently
configured minutes/seconds controls with the zero-clamp of
`apply_set_duration`: this is exactly the value that
`apply_set_duration` installs into `remaining`. -/
def AppState.configuredTotal (s : AppState) : Nat :=
  Nat.max (s.set_minutes * 60 + s.set_seconds) 1

/-- Modelled from the spec: `start()` as section 4.1 describes it —
sets `running := true` and resets `lastObservedInstant` to unset.
Used only to compare the code's `toggle` against the spec's wording. -/
def AppState.startSpec (s : AppState) : AppState :=
  { s with running := true, last_tick := none }

/-- Modelled from the spec: `pause()` as section 4.1 describes it —
sets `running := false` and clears `lastObservedInstant`.
Used only to compare the code's `toggle` against the spec's wording. -/
def AppState.pauseSpec (s : AppState) : AppState :=
  { s with running := false, last_tick := none }

/-- `toggle`-from-stopped as the code actually behaves: start running
with the current instant recorded as the baseline. -/
def AppState.startAt (s : AppState) (now : Nat) : AppState :=
  { s with running := true, last_tick := some now }

/-- `toggle`-from-running as the code actually behaves: stop, with the
current instant recorded in `last_tick`. -/
def AppState.pauseAt (s : AppState) (now : Nat) : AppState :=
  { s with running := false, last_tick := some now }

/-- `fmt_hhmmss`'s two-digit zero padding: Rust's `{:02}` format
(left-pads with a zero below 10, prints the decimal digits otherwise). -/
def pad2 (n : Nat) : String :=
  if n < 10 then "0" ++ toString n else toString n

/-- `fmt_hhmmss`: renders a second count as `HH:MM:SS`, omitting the
hour field when it is zero. -/
def fmt_hhmmss (total_secs : Nat) : String :=
  let h := total_secs / 3600
  let m := (total_secs % 3600) / 60
  let s := total_secs % 60
  if h > 0 then
    pad2 h ++ ":" ++ pad2 m ++ ":" ++ pad2 s
  else
    pad2 m ++ ":" ++ pad2 s

/-- States reachable from the startup state by the operations the UI
can invoke: editing the minutes/seconds controls, applying a duration,
toggling, resetting, ticking, and dismissing the finished dialog. -/
inductive Reachable : AppState → Prop where
  | init : Reachable AppState.default
  | set_min (s : AppState) (m : Nat) :
      Reachable s → Reachable { s with set_minutes := m }
  | set_sec (s : AppState) (k : Nat) :
      Reachable s → Reachable { s with set_seconds := k }
  | apply (s : AppState) : Reachable s → Reachable s.apply_set_duration
  | toggle (s : AppState) (now : Nat) : Reachable s → Reachable (s.toggle now)
  | reset (s : AppState) : Reachable s → Reachable s.reset
  | tick (s : AppState) (now : Nat) : Reachable s → Reachable (s.tick now)
  | ack (s : AppState) : Reachable s → Reachable { s with finished_modal := false }

/-! ## Shared helper lemmas -/

/-- Along any chain of non-decreasing instants, the last instant is at
least the starting one. -/
theorem chain_le_getLastD (p : Nat) (ns : List Nat)
    (h : List.Chain (· ≤ ·) p ns) : p ≤ ns.getLastD p := by
  induction ns generalizing p with
  | nil => simp
  | cons n ns ih =>
    rcases h with _ | ⟨hpn, hch⟩
    rw [List.getLastD_cons]
    exact hpn.trans (ih n hch)

/-- Whenever the completion branch of `tick` executes, the resulting
`remaining` is exactly 0. -/
theorem fires_tick_remaining (s : AppState) (now : Nat)
    (h : s.fires now = true) : (s.tick now).remaining = 0 := by
  unfold AppState.fires at h
  unfold AppState.tick
  rcases hlt : s.last_tick with _ | prev <;> rw [hlt] at h <;>
    simp_all [Bool.and_eq_true]

/-- A stopped timer is inert under any sequence of `tick` calls:
`remaining`, `running` and the finished flag are untouched and the
completion branch never executes. -/
theorem ticks_stopped (ns : List Nat) : ∀ s : AppState, s.running = false →
    (s.ticks ns).remaining = s.remaining ∧ (s.ticks ns).running = false ∧
    (s.ticks ns).finished_modal = s.finished_modal ∧ s.fireCount ns = 0 := by
  induction ns with
  | nil => intro s h; simp [AppState.ticks, AppState.fireCount, h]
  | cons n ns ih =>
    intro s h
    have htick : s.tick n = { s with last_tick := none } := by
      simp [AppState.tick, h]
    have hfires : s.fires n = false := by
      simp [AppState.fires, h]
    have := ih { s with last_tick := none } (by simpa using h)
    simp [AppState.ticks, AppState.fireCount, htick, hfires, this]

/-- A running timer with baseline `p`, positive remaining `r` and no
pending completion, ticked along non-decreasing instants whose last one
is exactly `p + r`, ends at `remaining = 0`, stopped, finished flag set,
and the completion branch executes exactly once. -/
theorem ticks_run (ns : List Nat) : ∀ (s : AppState) (p r : Nat),
    s.running = true → s.last_tick = some p → s.finished_modal = false →
    s.remaining = (r : Int) → 0 < r →
    List.Chain (· ≤ ·) p ns → ns.getLastD p = p + r →
    (s.ticks ns).remaining = 0 ∧ (s.ticks ns).running = false ∧
    (s.ticks ns).finished_modal = true ∧ s.fireCount ns = 1 := by
  induction ns with
  | nil =>
    intro s p r _ _ _ _ hr _ hlast
    simp only [List.getLastD] at hlast
    omega
  | cons n ns ih =>
    intro s p r hrun hlt hfin hrem hr hch hlast
    rcases hch with _ | ⟨hpn, hch⟩
    rw [List.getLastD_cons] at hlast
    by_cases hfire : s.remaining ≤ ((n - p : Nat) : Int)
    · have htick : s.tick n =
          { s with remaining := 0, running := false, finished_modal := true,
                   last_tick := some n } := by
        simp [AppState.tick, hrun, hlt, hfire]
      have hfires : s.fires n = true := by
        simp [AppState.fires, hrun, hlt, hfire]
      have hrest := ticks_stopped ns
          { s with remaining := 0, running := false, finished_modal := true,
                   last_tick := some n } rfl
      refine ⟨?_, ?_, ?_, ?_⟩
      · show ((s.tick n).ticks ns).remaining = 0
        rw [htick]; exact hrest.1
      · show ((s.tick n).ticks ns).running = false
        rw [htick]; exact hrest.2.1
      · show ((s.tick n).ticks ns).finished_modal = true
        rw [htick]; exact hrest.2.2.1
      · show (if s.fires n then 1 else 0) + (s.tick n).fireCount ns = 1
        rw [htick, hfires, hrest.2.2.2]
        simp
    · have hnplt : n - p < r := by
        rw [hrem] at hfire
        exact_mod_cast not_le.mp hfire
    -- the delta is charged and the countdown continues with r - (n - p)
      have htick : s.tick n =
          { s with remaining := s.remaining - ((n - p : Nat) : Int),
                   last_tick := some n } := by
        simp [AppState.tick, hrun, hlt, hfire]
      have hfires : s.fires n = false := by
        simp [AppState.fires, hrun, hlt, hfire]
      have hsub : s.remaining - ((n - p : Nat) : Int) = ((r - (n - p) : Nat) : Int) := by
        rw [hrem, Nat.cast_sub hnplt.le]
      have hrest := ih
          { s with remaining := s.remaining - ((n - p : Nat) : Int),
                   last_tick := some n } n (r - (n - p)) hrun rfl hfin hsub
          (by omega) hch (by omega)
      refine ⟨?_, ?_, ?_, ?_⟩
      · show ((s.tick n).ticks ns).remaining = 0
        rw [htick]; exact hrest.1
      · show ((s.tick n).ticks ns).running = false
        rw [htick]; exact hrest.2.1
      · show ((s.tick n).ticks ns).finished_modal = true
        rw [htick]; exact hrest.2.2.1
      · show (if s.fires n then 1 else 0) + (s.tick n).fireCount ns = 1
        rw [htick, hfires, hrest.2.2.2]
        simp

/-! ## Claims -/

/-- C1: for the positive total configured by `apply_set_duration`, a
running timer ticked along non-decreasing instants (the first call only
establishes the baseline) whose cumulative delta from the baseline is
exactly that total ends with `remaining = 0`, `running = false` and the
finished flag set, and the completion branch executes exactly once, no
matter how finely the instants split the interval. -/
theorem c1_completes_exactly_once (s₀ : AppState) (n₀ : Nat) (ns : List Nat)
    (hrun : s₀.running = true)
    (hch : List.Chain (· ≤ ·) n₀ ns)
    (hlast : ns.getLastD n₀ = n₀ + s₀.configuredTotal) :
    ((s₀.apply_set_duration).ticks (n₀ :: ns)).remaining = 0 ∧
    ((s₀.apply_set_duration).ticks (n₀ :: ns)).running = false ∧
    ((s₀.apply_set_duration).ticks (n₀ :: ns)).finished_modal = true ∧
    (s₀.apply_set_duration).fireCount (n₀ :: ns) = 1 := by
  have hrun1 : (s₀.apply_set_duration).running = true := hrun
  have hlt : (s₀.apply_set_duration).last_tick = none := rfl
  have htick : (s₀.apply_set_duration).tick n₀ =
      { s₀.apply_set_duration with last_tick := some n₀ } := by
    simp [AppState.tick, hrun1, hlt]
  have hfires : (s₀.apply_set_duration).fires n₀ = false := by
    simp [AppState.fires, hlt]
  have hpos : 0 < s₀.configuredTotal :=
    Nat.lt_of_lt_of_le Nat.one_pos (Nat.le_max_right _ 1)
  have hmain := ticks_run ns
      { s₀.apply_set_duration with last_tick := some n₀ } n₀ s₀.configuredTotal
      hrun1 rfl rfl rfl hpos hch hlast
  refine ⟨?_, ?_, ?_, ?_⟩
  · show (((s₀.apply_set_duration).tick n₀).ticks ns).remaining = 0
    rw [htick]; exact hmain.1
  · show (((s₀.apply_set_duration).tick n₀).ticks ns).running = false
    rw [htick]; exact hmain.2.1
  · show (((s₀.apply_set_duration).tick n₀).ticks ns).finished_modal = true
    rw [htick]; exact hmain.2.2.1
  · show (if (s₀.apply_set_duration).fires n₀ then 1 else 0) +
        ((s₀.apply_set_duration).tick n₀).fireCount ns = 1
    rw [htick, hfires, hmain.2.2.2]
    simp

/-- C1 witness: a running timer whose controls read 0 min 5 s, after
`apply_set_duration` (remaining = 5), ticked at instants 10, 12, 15
(baseline 10, deltas 2 and 3 summing to 5), completes exactly once. -/
theorem c1_witness :
    (((⟨0, 5, true, 17, some 2, true⟩ : AppState).apply_set_duration).ticks
        [10, 12, 15]).remaining = 0 ∧
    (((⟨0, 5, true, 17, some 2, true⟩ : AppState).apply_set_duration).ticks
        [10, 12, 15]).running = false ∧
    (((⟨0, 5, true, 17, some 2, true⟩ : AppState).apply_set_duration).ticks
        [10, 12, 15]).finished_modal = true ∧
    ((⟨0, 5, true, 17, some 2, true⟩ : AppState).apply_set_duration).fireCount
        [10, 12, 15] = 1 :=
  c1_completes_exactly_once ⟨0, 5, true, 17, some 2, true⟩ 10 [12, 15]
    rfl (List.Chain.cons (by decide) (List.Chain.cons (by decide) List.Chain.nil))
    (by decide)

/-- C2 counterexample: `apply_set_duration` on a running state does not
force `running = false`, contrary to the claim — the run keeps going. -/
theorem c2_counterexample :
    ¬ ((AppState.apply_set_duration
        { set_minutes := 5, set_seconds := 0, running := true,
          remaining := 300, last_tick := none, finished_modal := false }).running
       = false) := by
  decide

/-- C2 amended: `apply_set_duration` sets `remaining` to the configured
total (clamped to at least 1 second), clears the finished flag, clears
the tick baseline, and leaves `running` unchanged — it does not stop an
in-progress run. -/
theorem c2_apply_duration_amended (s : AppState) :
    (s.apply_set_duration).remaining = (s.configuredTotal : Int) ∧
    (s.apply_set_duration).finished_modal = false ∧
    (s.apply_set_duration).last_tick = none ∧
    (s.apply_set_duration).running = s.running := by
  simp [AppState.apply_set_duration, AppState.configuredTotal]

/-- C3 counterexample: on a running state, `toggle` is not the spec's
`pause()` — it stores the current instant in `last_tick` instead of
clearing it. -/
theorem c3_counterexample :
    ¬ (AppState.toggle
        { set_minutes := 5, set_seconds := 0, running := true,
          remaining := 300, last_tick := none, finished_modal := false } 7 =
       AppState.pauseSpec
        { set_minutes := 5, set_seconds := 0, running := true,
          remaining := 300, last_tick := none, finished_modal := false }) := by
  decide

/-- C3 amended: `toggle` is equivalent to a pause if running and to a
start otherwise, where both variants record the current instant as the
new `last_tick` baseline rather than clearing it. -/
theorem c3_toggle_amended (s : AppState) (now : Nat) :
    s.toggle now = if s.running then s.pauseAt now else s.startAt now := by
  cases s with
  | mk sm ss run rem lt fm =>
    cases run <;> simp [AppState.toggle, AppState.pauseAt, AppState.startAt]

/-- C4: a requested total of zero seconds is silently clamped — the
configured total and the `remaining` installed by `apply_set_duration`
are both exactly 1 second. -/
theorem c4_zero_duration_clamped (s : AppState)
    (h : s.set_minutes * 60 + s.set_seconds = 0) :
    s.configuredTotal = 1 ∧ (s.apply_set_duration).remaining = 1 := by
  constructor
  · simp [AppState.configuredTotal, h]
  · simp [AppState.apply_set_duration, h]

/-- C4 witness: 0 minutes, 0 seconds yields a configured total of 1 and
`remaining = 1` after applying. -/
theorem c4_witness :
    (⟨0, 0, false, 300, none, false⟩ : AppState).configuredTotal = 1 ∧
    ((⟨0, 0, false, 300, none, false⟩ : AppState).apply_set_duration).remaining = 1 :=
  c4_zero_duration_clamped ⟨0, 0, false, 300, none, false⟩ rfl

/-- C5: on a running state with a stored baseline, a `tick` whose `now`
is not later than the baseline computes a saturated delta of 0 and
leaves `remaining` unchanged.  (The hypothesis `0 ≤ remaining` records
that Rust `Duration` values are non-negative by construction.) -/
theorem c5_backward_clock_absorbed (s : AppState) (now prev : Nat)
    (hrun : s.running = true) (hlt : s.last_tick = some prev)
    (hle : now ≤ prev) (hrem : 0 ≤ s.remaining) :
    ((now - prev : Nat) : Int) = 0 ∧ (s.tick now).remaining = s.remaining := by
  have hdt : (now - prev : Nat) = 0 := Nat.sub_eq_zero_of_le hle
  refine ⟨by simp [hdt], ?_⟩
  by_cases hfire : s.remaining ≤ ((now - prev : Nat) : Int)
  · have hz : s.remaining = 0 := le_antisymm (by simpa [hdt] using hfire) hrem
    simp [AppState.tick, hrun, hlt, hfire, hz]
  · simp only [hdt, Nat.cast_zero] at hfire
    simp [AppState.tick, hrun, hlt, hfire, hdt]

/-- C5 witness: a running timer with baseline 10 ticked at the earlier
instant 4 charges nothing. -/
theorem c5_witness :
    ((4 - 10 : Nat) : Int) = 0 ∧
    ((⟨5, 0, true, 300, some 10, false⟩ : AppState).tick 4).remaining =
      (⟨5, 0, true, 300, some 10, false⟩ : AppState).remaining :=
  c5_backward_clock_absorbed ⟨5, 0, true, 300, some 10, false⟩ 4 10
    rfl rfl (by decide) (by decide)

/-- C6: in every state reachable from the startup state by the UI
operations, `remaining` is non-negative, and whenever the completion
branch of `tick` executes it sets `remaining` to exactly 0. -/
theorem c6_remaining_nonneg (s : AppState) (h : Reachable s) :
    0 ≤ s.remaining ∧
    ∀ now, s.fires now = true → (s.tick now).remaining = 0 := by
  refine ⟨?_, fun now hf => fires_tick_remaining s now hf⟩
  induction h with
  | init => decide
  | set_min s m _ ih => simpa using ih
  | set_sec s k _ ih => simpa using ih
  | apply s _ _ => simp [AppState.apply_set_duration]
  | toggle s now _ ih => simpa [AppState.toggle] using ih
  | reset s _ _ => simp [AppState.reset, AppState.apply_set_duration]
  | tick s now _ ih =>
    cases hrun : s.running with
    | false => simpa [AppState.tick, hrun] using ih
    | true =>
      cases hlt : s.last_tick with
      | none => simpa [AppState.tick, hrun, hlt] using ih
      | some prev =>
        by_cases hfire : s.remaining ≤ ((now - prev : Nat) : Int)
        · simp [AppState.tick, hrun, hlt, hfire]
        · have hlt2 : ((now - prev : Nat) : Int) < s.remaining := not_le.mp hfire
          simp only [AppState.tick, hrun, hlt, if_true, if_neg hfire]
          simp
          omega
  | ack s _ ih => simpa using ih

/-- C6 witness: the startup state toggled at instant 0 is reachable and
has non-negative remaining; ticking it at instant 1000 (a delta past
its 300 s) completes with remaining exactly 0. -/
theorem c6_witness :
    0 ≤ ((AppState.default).toggle 0).remaining ∧
    (((AppState.default).toggle 0).tick 1000).remaining = 0 :=
  ⟨(c6_remaining_nonneg _ (Reachable.toggle _ 0 Reachable.init)).1,
   (c6_remaining_nonneg _ (Reachable.toggle _ 0 Reachable.init)).2 1000 (by decide)⟩

/-- C7: once completion has fired (`running = false`, `remaining = 0`,
finished flag set), any further `tick` leaves `remaining` at 0 and the
finished flag set, keeps the timer stopped, and never executes the
completion branch again. -/
theorem c7_advance_after_completion_noop (s : AppState) (now : Nat)
    (hrun : s.running = false) (hrem : s.remaining = 0)
    (hfin : s.finished_modal = true) :
    (s.tick now).remaining = 0 ∧ (s.tick now).finished_modal = true ∧
    (s.tick now).running = false ∧ s.fires now = false := by
  simp [AppState.tick, AppState.fires, hrun, hrem, hfin]

/-- C7 witness: a finished state ticked at instant 100 stays finished
with remaining 0 and does not re-fire. -/
theorem c7_witness :
    ((⟨5, 0, false, 0, some 3, true⟩ : AppState).tick 100).remaining = 0 ∧
    ((⟨5, 0, false, 0, some 3, true⟩ : AppState).tick 100).finished_modal = true ∧
    ((⟨5, 0, false, 0, some 3, true⟩ : AppState).tick 100).running = false ∧
    (⟨5, 0, false, 0, some 3, true⟩ : AppState).fires 100 = false :=
  c7_advance_after_completion_noop ⟨5, 0, false, 0, some 3, true⟩ 100 rfl rfl rfl

/-- C8: `reset` restores `remaining` to the total derived from the
currently configured minutes/seconds (with the ≥ 1 clamp), stops the
timer, and clears the finished flag — from any state, including
mid-countdown. -/
theorem c8_reset_restores (s : AppState) :
    (s.reset).remaining = (s.configuredTotal : Int) ∧
    (s.reset).running = false ∧ (s.reset).finished_modal = false := by
  simp [AppState.reset, AppState.apply_set_duration, AppState.configuredTotal]

/-- C9: from a finished state (`remaining = 0`, stopped), `toggle` at
instant `i` starts the timer with baseline `i`, and the very next
`tick` — at any instant, even one before `i` — immediately re-fires
completion: finished flag set again, remaining still 0, stopped. -/
theorem c9_toggle_refires (s : AppState) (i now : Nat)
    (hrun : s.running = false) (hrem : s.remaining = 0) :
    (s.toggle i).running = true ∧ (s.toggle i).last_tick = some i ∧
    ((s.toggle i).tick now).finished_modal = true ∧
    ((s.toggle i).tick now).remaining = 0 ∧
    ((s.toggle i).tick now).running = false := by
  have h1 : (s.toggle i).running = true := by simp [AppState.toggle, hrun]
  have h2 : (s.toggle i).last_tick = some i := rfl
  have hfire : (s.toggle i).remaining ≤ ((now - i : Nat) : Int) := by
    simp [AppState.toggle, hrem]
  refine ⟨h1, h2, ?_, ?_, ?_⟩ <;> simp [AppState.tick, h1, h2, hfire]

/-- C9 witness: the finished state toggled at instant 3 and ticked at
the earlier instant 2 still immediately re-fires with remaining 0. -/
theorem c9_witness :
    ((⟨5, 0, false, 0, none, false⟩ : AppState).toggle 3).running = true ∧
    ((⟨5, 0, false, 0, none, false⟩ : AppState).toggle 3).last_tick = some 3 ∧
    (((⟨5, 0, false, 0, none, false⟩ : AppState).toggle 3).tick 2).finished_modal = true ∧
    (((⟨5, 0, false, 0, none, false⟩ : AppState).toggle 3).tick 2).remaining = 0 ∧
    (((⟨5, 0, false, 0, none, false⟩ : AppState).toggle 3).tick 2).running = false :=
  c9_toggle_refires ⟨5, 0, false, 0, none, false⟩ 3 2 rfl rfl

/-- Two-digit zero padding really is two characters wide for any value
below 100 (in particular for minute and second components below 60). -/
theorem pad2_length_two : ∀ n < 100, (pad2 n).length = 2 := by decide

/-- C10: the rendered string is `MM:SS` when the hour component is zero
(totals under one hour) and `HH:MM:SS` otherwise; the minute and second
components are below 60 and rendered as zero-padded two-character
fields. -/
theorem c10_hhmmss_format (t : Nat) :
    (t % 3600) / 60 < 60 ∧ t % 60 < 60 ∧
    (pad2 ((t % 3600) / 60)).length = 2 ∧ (pad2 (t % 60)).length = 2 ∧
    (t < 3600 → fmt_hhmmss t = pad2 ((t % 3600) / 60) ++ ":" ++ pad2 (t % 60)) ∧
    (3600 ≤ t →
      fmt_hhmmss t =
        pad2 (t / 3600) ++ ":" ++ pad2 ((t % 3600) / 60) ++ ":" ++ pad2 (t % 60)) := by
  have hm : (t % 3600) / 60 < 60 := by omega
  have hs : t % 60 < 60 := by omega
  refine ⟨hm, hs, pad2_length_two _ (by omega), pad2_length_two _ (by omega), ?_, ?_⟩
  · intro h
    have h0 : t / 3600 = 0 := Nat.div_eq_of_lt h
    simp [fmt_hhmmss, h0]
  · intro h
    have h0 : 0 < t / 3600 := Nat.div_pos h (by norm_num)
    simp [fmt_hhmmss, h0]

/-- C10 witness: 59 s renders as 00:59 (no hour field) and 3725 s as
01:02:05. -/
theorem c10_witness :
    (pad2 ((59 % 3600) / 60)).length = 2 ∧
    fmt_hhmmss 59 = pad2 ((59 % 3600) / 60) ++ ":" ++ pad2 (59 % 60) ∧
    fmt_hhmmss 3725 =
      pad2 (3725 / 3600) ++ ":" ++ pad2 ((3725 % 3600) / 60) ++ ":" ++ pad2 (3725 % 60) :=
  ⟨(c10_hhmmss_format 59).2.2.1,
   (c10_hhmmss_format 59).2.2.2.2.1 (by decide),
   (c10_hhmmss_format 3725).2.2.2.2.2 (by decide)⟩
